import Mathlib

/-!
Shallow embedding of the `ttc` media pipeline, covering the parts of
`src/services/storageService.ts` (upload scheduler) and
`src/services/videoProcessor.ts` (processing pipeline) that the verified
properties are about.

Modelling conventions:
* JavaScript numbers used as integer timestamps, priorities and byte sizes
  become `Int` or `Nat`; fractional quantities (compression quality, retry
  delays multiplied by 1.5, progress percentages) become `ℚ`.
* `Array.prototype.sort(cmp)` with a consistent comparator is, per the
  ECMAScript specification, a stable sort; a stable sort with respect to a
  total preorder has a unique result, so we embed it as
  `List.insertionSort`, which Mathlib proves sorted, permuting, and stable.
* An optional JS number field is `Option Int`; the JS truthiness test
  `!x` used by the code is false exactly for `undefined` and `0`, which we
  model on `Option Int` (`none` and `some 0` are falsy).
* `async` functions run synchronously up to their first `await`; the
  scheduler's drain loop is therefore modelled as a small-step machine whose
  suspension point is the single `await` inside the loop body.
-/

namespace TTC

namespace StorageService

/-- Constant from storageService.ts line 45: `MAX_RETRIES = 3`. -/
def MAX_RETRIES : Nat := 3

/-- Constant from storageService.ts line 46: `RETRY_DELAY = 2000` ms. -/
def RETRY_DELAY : ℚ := 2000

/-- Constant from storageService.ts line 47: `MAX_CONCURRENT_UPLOADS = 3`. -/
def MAX_CONCURRENT_UPLOADS : Nat := 3

/-- Constant from storageService.ts line 49: `MAX_QUEUE_AGE = 24*60*60*1000` ms. -/
def MAX_QUEUE_AGE : Int := 24 * 60 * 60 * 1000

/-- Constant from storageService.ts line 50: `DEFAULT_PRIORITY = 1`. -/
def DEFAULT_PRIORITY : Int := 1

/-- The `type` field of an upload task (storageService.ts line 23). -/
inductive ContentKind where
  | video
  | thumbnail
deriving DecidableEq

/-- `UploadTask` (storageService.ts lines 20-28), restricted to its data
fields; the callback fields carry no queue-ordering information. -/
structure UploadTask where
  uri : String
  userId : String
  kind : ContentKind
  priority : Option Int
deriving DecidableEq

/-- `StoredUploadTask` (storageService.ts lines 30-36). -/
structure StoredUploadTask where
  uri : String
  userId : String
  kind : ContentKind
  priority : Option Int
  createdAt : Int
deriving DecidableEq

/-- JS `x || d` on an optional number `x`: yields `d` when `x` is falsy
(`undefined` or `0`), else the value of `x`. -/
def jsOrInt : Option Int → Int → Int
  | none, d => d
  | some v, d => if v = 0 then d else v

/-- The sort key used by `sortQueue` (storageService.ts lines 398-399):
`task.priority || DEFAULT_PRIORITY`. -/
def priorityKey (t : UploadTask) : Int :=
  jsOrInt t.priority DEFAULT_PRIORITY

/-- The total preorder induced by the comparator at storageService.ts
line 400, `priorityB - priorityA`: task `a` may precede task `b` exactly
when the comparator is ≤ 0, i.e. `priorityKey b ≤ priorityKey a`. -/
def queueOrder (a b : UploadTask) : Prop :=
  priorityKey b ≤ priorityKey a

instance : DecidableRel queueOrder := fun a b =>
  inferInstanceAs (Decidable (priorityKey b ≤ priorityKey a))

instance : IsTotal UploadTask queueOrder :=
  ⟨fun a b => le_total (priorityKey b) (priorityKey a)⟩

instance : IsTrans UploadTask queueOrder :=
  ⟨fun _ _ _ h h2 => le_trans h2 h⟩

/-- `sortQueue` (storageService.ts lines 395-402): stable sort by priority
descending.  `Array.prototype.sort` is stable and the comparator induces
the total preorder `queueOrder`, so the result is the unique stable sort,
here computed by insertion sort. -/
def sortQueue (q : List UploadTask) : List UploadTask :=
  q.insertionSort queueOrder

/-- The defaulting step of `queueUpload` (storageService.ts lines 405-408):
`if (!task.priority) task.priority = DEFAULT_PRIORITY`.  The JS test
`!task.priority` is true for `undefined` and for `0`. -/
def applyDefaultPriority (t : UploadTask) : UploadTask :=
  match t.priority with
  | none => { t with priority := some DEFAULT_PRIORITY }
  | some v => if v = 0 then { t with priority := some DEFAULT_PRIORITY } else t

/-- The queue mutation performed by `queueUpload` (storageService.ts
lines 404-411): default the priority, push, re-sort. -/
def queueUploadPure (q : List UploadTask) (t : UploadTask) : List UploadTask :=
  sortQueue (q ++ [applyDefaultPriority t])

/-- The pending queue after a sequence of `queueUpload` calls starting from
an empty queue, with no intervening dequeue. -/
def queueAfter (ts : List UploadTask) : List UploadTask :=
  ts.foldl queueUploadPure []

/-- `retry` (storageService.ts lines 122-137).  `op n` is the outcome of the
(n+1)-st attempt of the wrapped operation.  The result pairs the final
outcome with the list of delays waited between attempts: on failure with
retries remaining the code waits `delay`, then recurses with
`retries - 1` and `delay * 1.5`; with no retries left it rethrows. -/
def retry {α : Type} (op : Nat → Except String α) (retries : Nat) (delay : ℚ)
    (attempt : Nat) : Except String α × List ℚ :=
  match op attempt with
  | .ok a => (.ok a, [])
  | .error e =>
    match retries with
    | 0 => (.error e, [])
    | r + 1 =>
      ((retry op r (delay * 1.5) (attempt + 1)).1,
        delay :: (retry op r (delay * 1.5) (attempt + 1)).2)

/-- The filter applied by `loadQueue` (storageService.ts lines 499-509): a
stored task is kept when it is not older than `MAX_QUEUE_AGE` and its
source file still exists. -/
def keepStored (now : Int) (fileExists : String → Bool) (s : StoredUploadTask) :
    Bool :=
  !(decide (now - s.createdAt > MAX_QUEUE_AGE)) && fileExists s.uri

/-- The restoration step of `loadQueue` (storageService.ts lines 511-523):
`priority: task.priority || DEFAULT_PRIORITY`. -/
def restoreTask (s : StoredUploadTask) : UploadTask :=
  { uri := s.uri, userId := s.userId, kind := s.kind,
    priority := some (jsOrInt s.priority DEFAULT_PRIORITY) }

/-- The total preorder induced by the comparator at storageService.ts
line 527, `(b.priority || 0) - (a.priority || 0)`. -/
def restoreOrder (a b : UploadTask) : Prop :=
  jsOrInt b.priority 0 ≤ jsOrInt a.priority 0

instance : DecidableRel restoreOrder := fun a b =>
  inferInstanceAs (Decidable (jsOrInt b.priority 0 ≤ jsOrInt a.priority 0))

instance : IsTotal UploadTask restoreOrder :=
  ⟨fun a b => le_total (jsOrInt b.priority 0) (jsOrInt a.priority 0)⟩

instance : IsTrans UploadTask restoreOrder :=
  ⟨fun _ _ _ h h2 => le_trans h2 h⟩

/-- `loadQueue` (storageService.ts lines 489-541): parse the stored queue,
drop expired tasks and tasks whose file is gone, restore the rest, and
stable-sort by priority descending before re-submitting them as a batch. -/
def loadQueue (stored : List StoredUploadTask) (now : Int)
    (fileExists : String → Bool) : List UploadTask :=
  ((stored.filter (keepStored now fileExists)).map restoreTask).insertionSort
    restoreOrder

/-- `persistQueue` (storageService.ts lines 543-561): serialize the pending
queue, stamping every record with `createdAt: Date.now()` — the time of
persistence, not the task's original creation time. -/
def persistQueue (q : List UploadTask) (now : Int) : List StoredUploadTask :=
  q.map fun t =>
    { uri := t.uri, userId := t.userId, kind := t.kind,
      priority := t.priority, createdAt := now }

/-! ### The drain loop as a small-step machine

`processQueue` (storageService.ts lines 443-479) is an `async` function: a
call runs synchronously until the single `await this.processUploadTask(task)`
inside the `while` loop, then suspends.  The machine state below records the
queue, the instrumentation counters, and whether the loop is currently
suspended at that `await`.  External events are the public operations plus
the resolution of the awaited transfer. -/

structure SchedState where
  uploadQueue : List UploadTask
  activeUploadCount : Nat
  isProcessingQueue : Bool
  isPaused : Bool
  /-- control is suspended at `await this.processUploadTask(task)` -/
  awaitingTransfer : Bool
  /-- dequeued tasks, in dequeue order (instrumentation, not code state) -/
  drained : List UploadTask
deriving DecidableEq

/-- Initial scheduler state (storageService.ts lines 58-62). -/
def initState : SchedState :=
  { uploadQueue := [], activeUploadCount := 0, isProcessingQueue := false,
    isPaused := false, awaitingTransfer := false, drained := [] }

/-- One pass of the `while` test at storageService.ts line 448, entered with
`isProcessingQueue = true`.  If the queue is non-empty, capacity remains and
the queue is not paused, the head is shifted, the active count incremented,
and control suspends at the `await`; otherwise the loop exits, the `finally`
clears `isProcessingQueue`, and the re-entry condition at line 475 — the
same conjunction that just failed — is false, so the call returns. -/
def resumeLoop (s : SchedState) : SchedState :=
  match s.uploadQueue with
  | [] => { s with isProcessingQueue := false }
  | t :: rest =>
    if s.activeUploadCount < MAX_CONCURRENT_UPLOADS ∧ s.isPaused = false then
      { s with uploadQueue := rest,
               activeUploadCount := s.activeUploadCount + 1,
               awaitingTransfer := true,
               drained := s.drained ++ [t] }
    else { s with isProcessingQueue := false }

/-- External events driving the scheduler: the public operations
(`queueUpload`, `pauseQueue`, `resumeQueue`, `cancelUpload`) and the
resolution (success or failure) of the awaited transfer. -/
inductive SchedEvent where
  | enqueue (t : UploadTask)
  | pause
  | resume
  | finish
  | cancel
deriving DecidableEq

/-- One event step of the scheduler.

* `enqueue` is `queueUpload` (lines 404-427): default the priority, push,
  sort, then start processing if not paused, not already processing, and
  below capacity — the drain loop then runs synchronously up to its first
  `await`.
* `pause` and `resume` are `pauseQueue`/`resumeQueue` (lines 370-393).
* `finish` is the resolution of the awaited transfer: callbacks run, the
  `finally` decrements the count, and the `while` test runs again.
* `cancel` is `cancelUpload` (lines 139-146): it aborts the in-flight
  request; the rejection of the awaited promise then surfaces as a
  subsequent `finish` event, so the step itself changes no counter. -/
def schedStep (s : SchedState) : SchedEvent → SchedState
  | .enqueue t =>
    let s2 := { s with uploadQueue := sortQueue (s.uploadQueue ++ [applyDefaultPriority t]) }
    if s2.isPaused = false ∧ s2.isProcessingQueue = false ∧
        s2.activeUploadCount < MAX_CONCURRENT_UPLOADS then
      resumeLoop { s2 with isProcessingQueue := true }
    else s2
  | .pause => { s with isPaused := true }
  | .resume =>
    if s.isPaused then
      let s2 := { s with isPaused := false }
      if 0 < s2.uploadQueue.length ∧
          s2.activeUploadCount < MAX_CONCURRENT_UPLOADS then
        if s2.isProcessingQueue then s2
        else resumeLoop { s2 with isProcessingQueue := true }
      else s2
    else s
  | .finish =>
    if s.awaitingTransfer then
      resumeLoop { s with awaitingTransfer := false,
                          activeUploadCount := s.activeUploadCount - 1 }
    else s
  | .cancel => s

/-- The scheduler state after a sequence of events from the initial state. -/
def schedRun (events : List SchedEvent) : SchedState :=
  events.foldl schedStep initState

end StorageService

namespace VideoProcessor

/-- Constant from videoProcessor.ts line 34: `MAX_VIDEO_SIZE = 50MB`. -/
def MAX_VIDEO_SIZE : Nat := 50 * 1024 * 1024

/-- Constant from videoProcessor.ts line 117: 1MB chunks. -/
def chunkSize : Nat := 1024 * 1024

/-- `CompressionConfig` (videoProcessor.ts lines 14-19). -/
structure CompressionConfig where
  quality : ℚ
  bitrate : Option Nat
  width : Option Nat
  height : Option Nat
deriving DecidableEq

/-- `getCompressionConfig` (videoProcessor.ts lines 47-69). -/
def getCompressionConfig (fileSize : Nat) : CompressionConfig :=
  if fileSize > 100 * 1024 * 1024 then
    { quality := 0.5, bitrate := some 1500000, width := some 720, height := some 1280 }
  else if fileSize > 50 * 1024 * 1024 then
    { quality := 0.6, bitrate := some 2000000, width := some 1080, height := some 1920 }
  else
    { quality := 0.8, bitrate := some 3000000, width := none, height := none }

/-- The size-threshold compression gate (videoProcessor.ts line 192):
`metadata.size > this.MAX_VIDEO_SIZE`. -/
def needsCompression (size : Nat) : Bool :=
  decide (size > MAX_VIDEO_SIZE)

/-- `totalChunks` (videoProcessor.ts line 119):
`Math.ceil(fileInfo.size / chunkSize)`. -/
def totalChunks (size : Nat) : Nat :=
  (size + chunkSize - 1) / chunkSize

/-- The values passed to `compressVideo`'s progress callback
(videoProcessor.ts lines 122-141): `((i + 1) / totalChunks) * 100` for
`i = 0, …, totalChunks - 1`. -/
def compressProgressValues (size : Nat) : List ℚ :=
  (List.range (totalChunks size)).map fun (i : Nat) =>
    (((i : ℚ) + 1) / (totalChunks size : ℚ)) * 100

/-- The full sequence of values `processVideo` (videoProcessor.ts
lines 173-238) passes to its progress callback: the fixed checkpoints
0, 10, 30, then — only when the compression gate fires — the compression
progress rescaled by `30 + p * 0.6` (line 206), then 95 and 100. -/
def processVideoProgress (size : Nat) : List ℚ :=
  [0, 10, 30] ++
    (if needsCompression size then
      (compressProgressValues size).map fun p => 30 + p * 0.6
    else []) ++
    [95, 100]

/-- The error message thrown by the duplicate-processing guard
(videoProcessor.ts line 180). -/
def alreadyProcessingMsg : String := "Video is already being processed"

/-- The guard at videoProcessor.ts lines 179-183: reject the call if the
generated `processId` is already in the in-flight set, else insert it. -/
def beginProcessing (inFlight : List String) (processId : String) :
    Except String (List String) :=
  if processId ∈ inFlight then .error alreadyProcessingMsg
  else .ok (processId :: inFlight)

/-- Call-level events for the duplicate-processing guard: a call starts with
its generated `processId`, or a call with that id returns (success or
failure both delete the id, lines 226 and 235). -/
inductive ProcEvent where
  | start (id : String)
  | finish (id : String)

/-- State of the guard: the in-flight id set and the list of guard errors
raised so far. -/
structure ProcState where
  inFlight : List String
  errors : List String
deriving DecidableEq

/-- One step of the guard machine. -/
def procStep (s : ProcState) : ProcEvent → ProcState
  | .start id =>
    match beginProcessing s.inFlight id with
    | .ok fl => { s with inFlight := fl }
    | .error e => { s with errors := s.errors ++ [e] }
  | .finish id => { s with inFlight := s.inFlight.erase id }

/-- Run the guard machine from the empty in-flight set. -/
def procRun (events : List ProcEvent) : ProcState :=
  events.foldl procStep { inFlight := [], errors := [] }

/-- The ids generated by the `start` events of a trace, in order. -/
def startIds : List ProcEvent → List String
  | [] => []
  | .start id :: rest => id :: startIds rest
  | .finish _ :: rest => startIds rest

end VideoProcessor

instance {ε α : Type} [DecidableEq ε] [DecidableEq α] :
    DecidableEq (Except ε α) := fun a b =>
  match a, b with
  | .ok x, .ok y =>
    if h : x = y then .isTrue (by rw [h])
    else .isFalse (by intro c; cases c; exact h rfl)
  | .error x, .error y =>
    if h : x = y then .isTrue (by rw [h])
    else .isFalse (by intro c; cases c; exact h rfl)
  | .ok _, .error _ => .isFalse (by intro c; cases c)
  | .error _, .ok _ => .isFalse (by intro c; cases c)

namespace StorageService

/-! ### Concrete scenario data

The five tasks of the spec scenario, enqueued with priorities
`[1, 3, 1, 2, 3]` in that order. -/

def scenarioTask1 : UploadTask :=
  { uri := "file1", userId := "u", kind := .video, priority := some 1 }

def scenarioTask2 : UploadTask :=
  { uri := "file2", userId := "u", kind := .video, priority := some 3 }

def scenarioTask3 : UploadTask :=
  { uri := "file3", userId := "u", kind := .video, priority := some 1 }

def scenarioTask4 : UploadTask :=
  { uri := "file4", userId := "u", kind := .video, priority := some 2 }

def scenarioTask5 : UploadTask :=
  { uri := "file5", userId := "u", kind := .video, priority := some 3 }

/-- The five enqueues of the scenario, fired at an idle, unpaused
scheduler, followed by the resolutions of the resulting transfers. -/
def scenarioEvents : List SchedEvent :=
  [.enqueue scenarioTask1, .enqueue scenarioTask2, .enqueue scenarioTask3,
   .enqueue scenarioTask4, .enqueue scenarioTask5,
   .finish, .finish, .finish, .finish, .finish]

/-- The same five enqueues fired while the queue is paused, so that all
five tasks are pending simultaneously before draining begins. -/
def pausedScenarioEvents : List SchedEvent :=
  [.pause,
   .enqueue scenarioTask1, .enqueue scenarioTask2, .enqueue scenarioTask3,
   .enqueue scenarioTask4, .enqueue scenarioTask5,
   .resume, .finish, .finish, .finish, .finish]

/-- The record produced by persisting `scenarioTask1` at time 7. -/
def persistedScenarioRecord : StoredUploadTask :=
  { uri := "file1", userId := "u", kind := .video, priority := some 1,
    createdAt := 7 }

/-- Stored snapshot records for the reload witness: an expired record, two
fresh equal-priority records, and a record whose source file is gone. -/
def storedOld : StoredUploadTask :=
  { uri := "old", userId := "u", kind := .video, priority := some 9,
    createdAt := 0 }

def storedKeepA : StoredUploadTask :=
  { uri := "keepA", userId := "u", kind := .video, priority := some 2,
    createdAt := 99000000 }

def storedKeepB : StoredUploadTask :=
  { uri := "keepB", userId := "u", kind := .video, priority := some 2,
    createdAt := 99500000 }

def storedGone : StoredUploadTask :=
  { uri := "gone", userId := "u", kind := .video, priority := some 5,
    createdAt := 99500000 }

/-- Scheduler invariant: the drain loop awaits each transfer before it
shifts the next task and the `isProcessingQueue` flag rules out a second
loop, so the active-upload counter tracks the single possible in-flight
transfer; independently, the pending queue is always priority-sorted. -/
def SchedInv (s : SchedState) : Prop :=
  s.activeUploadCount = (if s.awaitingTransfer then 1 else 0) ∧
  (s.awaitingTransfer = true → s.isProcessingQueue = true) ∧
  List.Sorted queueOrder s.uploadQueue

end StorageService

/-! ## Theorems -/

namespace VideoProcessor

/-- C2: the compression tier is selected purely from the input byte size:
above 100MB the large tier (quality 0.5, 1.5 Mbps, 720×1280); above 50MB up
to 100MB the medium tier (quality 0.6, 2 Mbps, 1080×1920); otherwise the
small tier (quality 0.8, no resize), and those inputs also fail the
size-threshold gate, so they are never compressed at all. -/
theorem compression_tier_selection (size : Nat) :
    (size > 100 * 1024 * 1024 →
      getCompressionConfig size =
        { quality := 0.5, bitrate := some 1500000,
          width := some 720, height := some 1280 }) ∧
    (50 * 1024 * 1024 < size ∧ size ≤ 100 * 1024 * 1024 →
      getCompressionConfig size =
        { quality := 0.6, bitrate := some 2000000,
          width := some 1080, height := some 1920 }) ∧
    (size ≤ 50 * 1024 * 1024 →
      getCompressionConfig size =
        { quality := 0.8, bitrate := some 3000000,
          width := none, height := none } ∧
      needsCompression size = false) := by
  refine ⟨fun h => ?_, fun h => ?_, fun h => ?_⟩
  · rw [getCompressionConfig, if_pos h]
  · rw [getCompressionConfig, if_neg (by omega), if_pos h.1]
  · refine ⟨by rw [getCompressionConfig, if_neg (by omega), if_neg (by omega)], ?_⟩
    simp only [needsCompression, MAX_VIDEO_SIZE, decide_eq_false_iff_not, not_lt]
    omega

/-- Witness for C2 at the spec's three scenario sizes 120MB, 70MB, 10MB. -/
theorem compression_tier_selection_witness :
    getCompressionConfig (120 * 1024 * 1024) =
      { quality := 0.5, bitrate := some 1500000,
        width := some 720, height := some 1280 } ∧
    getCompressionConfig (70 * 1024 * 1024) =
      { quality := 0.6, bitrate := some 2000000,
        width := some 1080, height := some 1920 } ∧
    (getCompressionConfig (10 * 1024 * 1024) =
      { quality := 0.8, bitrate := some 3000000,
        width := none, height := none } ∧
      needsCompression (10 * 1024 * 1024) = false) :=
  ⟨(compression_tier_selection (120 * 1024 * 1024)).1 (by norm_num),
   (compression_tier_selection (70 * 1024 * 1024)).2.1 ⟨by norm_num, by norm_num⟩,
   (compression_tier_selection (10 * 1024 * 1024)).2.2 (by norm_num)⟩

end VideoProcessor

namespace StorageService

/-- C10: `queueUpload` treats a caller-supplied priority of 0 exactly like
an absent priority: both are overwritten with `DEFAULT_PRIORITY = 1` before
the queue is sorted and persisted. -/
theorem priority_zero_defaults (q : List UploadTask) (t : UploadTask) :
    queueUploadPure q { t with priority := some 0 } =
      queueUploadPure q { t with priority := none } ∧
    applyDefaultPriority { t with priority := some 0 } =
      { t with priority := some DEFAULT_PRIORITY } ∧
    applyDefaultPriority { t with priority := none } =
      { t with priority := some DEFAULT_PRIORITY } ∧
    DEFAULT_PRIORITY = 1 :=
  ⟨rfl, rfl, rfl, rfl⟩

/-- C9: `persistQueue` stamps every stored record's `createdAt` with the
time of persistence; consequently the `loadQueue` age filter applied at a
later time keeps a record exactly when the time elapsed since the persist
(not since the task's first enqueue) is within `MAX_QUEUE_AGE` and the file
still exists. -/
theorem persistQueue_restamps_age (q : List UploadTask) (now : Int) :
    (∀ s ∈ persistQueue q now, s.createdAt = now) ∧
    (∀ s ∈ persistQueue q now, ∀ (later : Int) (fileExists : String → Bool),
      keepStored later fileExists s =
        (decide (later - now ≤ MAX_QUEUE_AGE) && fileExists s.uri)) := by
  constructor
  · intro s hs
    simp only [persistQueue, List.mem_map] at hs
    obtain ⟨t, -, rfl⟩ := hs
    rfl
  · intro s hs later fileExists
    simp only [persistQueue, List.mem_map] at hs
    obtain ⟨t, -, rfl⟩ := hs
    simp only [keepStored]
    rw [← decide_not]
    congr 1
    simp [not_lt]

/-- Witness for C9: a one-task queue persisted at time 7, reloaded at
time 10. -/
theorem persistQueue_restamps_age_witness :
    persistedScenarioRecord.createdAt = 7 ∧
    keepStored 10 (fun _ => true) persistedScenarioRecord =
      (decide ((10 : Int) - 7 ≤ MAX_QUEUE_AGE) && true) :=
  ⟨(persistQueue_restamps_age [scenarioTask1] 7).1 persistedScenarioRecord
      (by decide),
   (persistQueue_restamps_age [scenarioTask1] 7).2 persistedScenarioRecord
      (by decide) 10 (fun _ => true)⟩

/-! ### Retry with exponential backoff -/

/-- If the first `m` attempts fail and attempt `m` (zero-based) succeeds
with `v`, and at least `m` retries remain, `retry` returns `ok v` after
waiting `d, d*1.5, d*1.5², …` — `m` delays in total. -/
theorem retry_ok_of_attempts {α : Type} (op : Nat → Except String α) (v : α) :
    ∀ (m r n : Nat) (d : ℚ), m ≤ r →
      (∀ k, k < m → ∃ e, op (n + k) = Except.error e) →
      op (n + m) = Except.ok v →
      retry op r d n = (Except.ok v, (List.range m).map fun i => d * 1.5 ^ i) := by
  intro m
  induction m with
  | zero =>
    intro r n d _ _ hok
    rw [Nat.add_zero] at hok
    rw [retry, hok]
    rfl
  | succ m ih =>
    intro r n d hmr hfail hok
    obtain ⟨e, he⟩ := hfail 0 (Nat.succ_pos m)
    rw [Nat.add_zero] at he
    obtain ⟨r2, rfl⟩ : ∃ r2, r = r2 + 1 := by
      cases r with
      | zero => omega
      | succ r2 => exact ⟨r2, rfl⟩
    rw [retry, he]
    dsimp only
    have step := ih r2 (n + 1) (d * 1.5) (by omega)
      (fun k hk => by
        obtain ⟨e2, he2⟩ := hfail (k + 1) (by omega)
        exact ⟨e2, by rw [← he2]; ring_nf⟩)
      (by rw [← hok]; ring_nf)
    rw [step]
    simp only [List.range_succ_eq_map, List.map_cons, List.map_map]
    refine congrArg _ (congrArg₂ _ (by ring) (List.map_congr_left fun i _ => ?_))
    simp only [Function.comp_apply, Nat.succ_eq_add_one]
    push_cast [pow_succ]
    ring

/-- If every attempt up to and including the last permitted one fails,
`retry` propagates the final error after the full backoff sequence. -/
theorem retry_error_of_attempts {α : Type} (op : Nat → Except String α) :
    ∀ (r n : Nat) (d : ℚ) (errs : Nat → String),
      (∀ k, k ≤ r → op (n + k) = Except.error (errs k)) →
      retry op r d n =
        (Except.error (errs r), (List.range r).map fun i => d * 1.5 ^ i) := by
  intro r
  induction r with
  | zero =>
    intro n d errs hfail
    have h0 := hfail 0 (le_refl 0)
    rw [Nat.add_zero] at h0
    rw [retry, h0]
    rfl
  | succ r ih =>
    intro n d errs hfail
    have h0 := hfail 0 (Nat.zero_le _)
    rw [Nat.add_zero] at h0
    rw [retry, h0]
    dsimp only
    have step := ih (n + 1) (d * 1.5) (fun k => errs (k + 1))
      (fun k hk => by rw [← hfail (k + 1) (by omega)]; ring_nf)
    rw [step]
    simp only [List.range_succ_eq_map, List.map_cons, List.map_map]
    refine congrArg _ (congrArg₂ _ (by ring) (List.map_congr_left fun i _ => ?_))
    simp only [Function.comp_apply, Nat.succ_eq_add_one]
    push_cast [pow_succ]
    ring

/-- C3: with `MAX_RETRIES = 3` and backoff factor 1.5, a transfer whose
first two attempts fail and whose third succeeds returns the successful
result, and the inter-attempt delays are exactly `base` and `base * 1.5`;
in general, on each failure while retries remain the wrapper waits the
current delay and retries with the delay multiplied by 1.5, and when
retries are exhausted it propagates the final error. -/
theorem retry_backoff {α : Type} (op : Nat → Except String α) (base : ℚ) :
    (∀ (v : α) (e0 e1 : String),
      op 0 = Except.error e0 → op 1 = Except.error e1 → op 2 = Except.ok v →
      retry op MAX_RETRIES base 0 = (Except.ok v, [base, base * 1.5])) ∧
    (∀ (r n : Nat) (d : ℚ) (e : String), op n = Except.error e →
      retry op (r + 1) d n =
        ((retry op r (d * 1.5) (n + 1)).1,
          d :: (retry op r (d * 1.5) (n + 1)).2)) ∧
    (∀ (r n : Nat) (d : ℚ) (errs : Nat → String),
      (∀ k, k ≤ r → op (n + k) = Except.error (errs k)) →
      retry op r d n =
        (Except.error (errs r), (List.range r).map fun i => d * 1.5 ^ i)) := by
  refine ⟨fun v e0 e1 h0 h1 h2 => ?_, fun r n d e he => ?_, retry_error_of_attempts op⟩
  · have := retry_ok_of_attempts op v 2 MAX_RETRIES 0 base (by norm_num [MAX_RETRIES])
      (fun k hk => by
        interval_cases k
        · exact ⟨e0, h0⟩
        · exact ⟨e1, h1⟩)
      h2
    rw [this]
    norm_num [List.range_succ]
  · rw [retry, he]

/-- Witness for C3: an operation failing on attempts 0 and 1 and
succeeding on attempt 2, run with the code's constants
(`MAX_RETRIES = 3`, base delay `RETRY_DELAY = 2000`): the delays waited
are 2000 and 3000. -/
theorem retry_backoff_witness :
    retry (fun n => if n ≤ 1 then Except.error "net" else Except.ok 42)
        MAX_RETRIES RETRY_DELAY 0 =
      (Except.ok 42, [RETRY_DELAY, RETRY_DELAY * 1.5]) ∧
    RETRY_DELAY * 1.5 = 3000 :=
  ⟨(retry_backoff (fun n => if n ≤ 1 then Except.error "net" else Except.ok 42)
      RETRY_DELAY).1 42 "net" "net" rfl rfl rfl,
   by norm_num [RETRY_DELAY]⟩

/-! ### The duplicate-processing guard -/

/-- Every id in the in-flight set of the guard machine was generated by an
earlier `start` event. -/
theorem procRun_inFlight_subset :
    ∀ (events : List VideoProcessor.ProcEvent) (s : VideoProcessor.ProcState)
      (seen : List String),
      (∀ x ∈ s.inFlight, x ∈ seen) →
      (seen ++ VideoProcessor.startIds events).Nodup →
      (events.foldl VideoProcessor.procStep s).errors = s.errors := by
  intro events
  induction events with
  | nil => intro s seen _ _; rfl
  | cons e rest ih =>
    intro s seen hsub hnd
    cases e with
    | start id =>
      rw [VideoProcessor.startIds] at hnd
      have hid : id ∉ seen := by
        have := List.disjoint_of_nodup_append hnd
        exact fun hmem => this hmem (List.mem_cons_self id _)
      have hidfl : id ∉ s.inFlight := fun h => hid (hsub id h)
      have hstep : VideoProcessor.procStep s (.start id) =
          { s with inFlight := id :: s.inFlight } := by
        rw [VideoProcessor.procStep, VideoProcessor.beginProcessing, if_neg hidfl]
      rw [List.foldl_cons, hstep]
      refine ih _ (seen ++ [id]) ?_ ?_
      · intro x hx
        rcases List.mem_cons.mp hx with h | h
        · exact List.mem_append.mpr (Or.inr (h ▸ List.mem_singleton_self id))
        · exact List.mem_append.mpr (Or.inl (hsub x h))
      · rw [List.append_assoc, List.singleton_append]
        exact hnd
    | finish id =>
      rw [List.foldl_cons]
      refine ih _ seen ?_ ?_
      · intro x hx
        exact hsub x (List.mem_of_mem_erase hx)
      · rw [VideoProcessor.startIds] at hnd
        exact hnd

end StorageService

namespace VideoProcessor

/-- C7: a call whose generated `processId` is already in the in-flight set
fails with the `AlreadyProcessing` error; but along any trace of calls
whose generated identifiers are pairwise distinct — which the
timestamp-plus-random-suffix generation provides — the guard never fires,
so no call ever throws `Video is already being processed`. -/
theorem alreadyProcessing_guard_unreachable :
    (∀ (inFlight : List String) (id : String), id ∈ inFlight →
      beginProcessing inFlight id = Except.error alreadyProcessingMsg) ∧
    (∀ events : List ProcEvent, (startIds events).Nodup →
      (procRun events).errors = []) := by
  constructor
  · intro fl id h
    rw [beginProcessing, if_pos h]
  · intro events hnd
    exact StorageService.procRun_inFlight_subset events
      { inFlight := [], errors := [] } [] (by intro x hx; cases hx) (by simpa)

/-- Witness for C7: a duplicate id in flight raises the error, and a trace
of three calls with distinct generated ids (the second finishing before the
third starts) raises none. -/
theorem alreadyProcessing_guard_unreachable_witness :
    beginProcessing ["1720000000000_a1b2c"] "1720000000000_a1b2c" =
      Except.error alreadyProcessingMsg ∧
    (procRun [.start "1720000000000_a1b2c", .start "1720000000001_x9y8z",
      .finish "1720000000001_x9y8z", .start "1720000000002_q3w4e"]).errors
      = [] :=
  ⟨alreadyProcessing_guard_unreachable.1 ["1720000000000_a1b2c"]
      "1720000000000_a1b2c" (List.mem_singleton_self _),
   alreadyProcessing_guard_unreachable.2 _ (by decide)⟩

end VideoProcessor

namespace StorageService

/-! ### Scheduler invariants -/

/-- Entering the drain loop with the counter at zero, the flag set, and no
transfer awaited preserves the scheduler invariant. -/
theorem resumeLoop_inv (s : SchedState)
    (hcount : s.activeUploadCount = 0)
    (hproc : s.isProcessingQueue = true)
    (hawait : s.awaitingTransfer = false)
    (hsort : List.Sorted queueOrder s.uploadQueue) :
    SchedInv (resumeLoop s) := by
  rcases hq : s.uploadQueue with - | ⟨t, rest⟩
  · simp only [resumeLoop, hq]
    exact ⟨by simp [hawait, hcount], by simp [hawait], by rw [hq] at hsort; exact hsort⟩
  · simp only [resumeLoop, hq]
    split
    · exact ⟨by simp [hcount], by simp [hproc],
        by rw [hq] at hsort; exact hsort.of_cons⟩
    · exact ⟨by simp [hawait, hcount], by simp [hawait],
        by rw [hq] at hsort; exact hsort⟩

/-- Every scheduler event preserves the invariant. -/
theorem schedStep_inv (s : SchedState) (e : SchedEvent) (h : SchedInv s) :
    SchedInv (schedStep s e) := by
  obtain ⟨hcount, hawproc, hsort⟩ := h
  cases e with
  | enqueue t =>
    simp only [schedStep]
    split
    · rename_i hcond
      refine resumeLoop_inv _ ?_ rfl ?_ ?_
      · have hpf : s.isProcessingQueue = false := hcond.2.1
        have haw : s.awaitingTransfer = false := by
          cases hA : s.awaitingTransfer
          · rfl
          · rw [hawproc hA] at hpf; cases hpf
        rw [hcount, haw]
        rfl
      · cases hA : s.awaitingTransfer
        · rfl
        · have := hawproc hA
          rw [this] at hcond
          exact absurd hcond.2.1 (by simp)
      · exact List.sorted_insertionSort queueOrder _
    · exact ⟨hcount, hawproc, List.sorted_insertionSort queueOrder _⟩
  | pause => exact ⟨hcount, hawproc, hsort⟩
  | resume =>
    simp only [schedStep]
    split
    · split
      · split
        · exact ⟨hcount, hawproc, hsort⟩
        · rename_i hpf
          simp only [Bool.not_eq_true] at hpf
          have haw : s.awaitingTransfer = false := by
            cases hA : s.awaitingTransfer
            · rfl
            · rw [hawproc hA] at hpf; cases hpf
          refine resumeLoop_inv _ ?_ rfl ?_ hsort
          · rw [hcount, haw]; rfl
          · exact haw
      · exact ⟨hcount, hawproc, hsort⟩
    · exact ⟨hcount, hawproc, hsort⟩
  | finish =>
    simp only [schedStep]
    split
    · rename_i hA
      refine resumeLoop_inv _ ?_ ?_ rfl hsort
      · rw [hcount, if_pos hA]
      · exact hawproc hA
    · exact ⟨hcount, hawproc, hsort⟩
  | cancel => exact ⟨hcount, hawproc, hsort⟩

/-- The invariant holds in every reachable scheduler state. -/
theorem schedRun_inv (events : List SchedEvent) : SchedInv (schedRun events) := by
  rw [schedRun]
  have hstep : ∀ (evs : List SchedEvent) (s : SchedState),
      SchedInv s → SchedInv (evs.foldl schedStep s) := by
    intro evs
    induction evs with
    | nil => exact fun s h => h
    | cons e rest ih =>
      intro s h
      exact ih (schedStep s e) (schedStep_inv s e h)
  refine hstep events initState ⟨rfl, ?_, List.sorted_nil⟩
  intro h
  cases h

/-- C5: under every sequence of enqueue, pause, resume, cancel and
completion events, and hence for every queue size, the number of active
concurrent transfers never exceeds the configured cap
`MAX_CONCURRENT_UPLOADS = 3`. -/
theorem active_uploads_within_cap (events : List SchedEvent) :
    (schedRun events).activeUploadCount ≤ MAX_CONCURRENT_UPLOADS ∧
    MAX_CONCURRENT_UPLOADS = 3 := by
  refine ⟨?_, rfl⟩
  rw [(schedRun_inv events).1]
  split <;> norm_num [MAX_CONCURRENT_UPLOADS]

/-- C8: the drain loop awaits each dequeued task's transfer before it
shifts the next and the `isProcessingQueue` flag prevents re-entrant
loops, so `activeUploadCount` never exceeds 1 — the counter is exactly 1
while the single possible transfer is in flight and 0 otherwise — even
though the configured cap is 3. -/
theorem uploads_strictly_sequential (events : List SchedEvent) :
    (schedRun events).activeUploadCount ≤ 1 ∧
    (schedRun events).activeUploadCount =
      (if (schedRun events).awaitingTransfer then 1 else 0) ∧
    MAX_CONCURRENT_UPLOADS = 3 := by
  refine ⟨?_, (schedRun_inv events).1, rfl⟩
  rw [(schedRun_inv events).1]
  split <;> norm_num

/-! ### Stable priority ordering of the pending queue -/

/-- Enqueueing one more task into an accumulated queue. -/
theorem queueAfter_append_one (ts : List UploadTask) (t : UploadTask) :
    queueAfter (ts ++ [t]) = queueUploadPure (queueAfter ts) t := by
  rw [queueAfter, queueAfter, List.foldl_append]
  rfl

/-- The accumulated pending queue holds exactly the enqueued tasks (with
defaulted priorities). -/
theorem queueAfter_perm (ts : List UploadTask) :
    List.Perm (queueAfter ts) (ts.map applyDefaultPriority) := by
  induction ts using List.reverseRecOn with
  | nil => exact List.Perm.refl _
  | append_singleton l t ih =>
    rw [queueAfter_append_one, List.map_append]
    exact (List.perm_insertionSort queueOrder _).trans (ih.append_right _)

/-- The accumulated pending queue is sorted by priority descending. -/
theorem queueAfter_sorted (ts : List UploadTask) :
    List.Sorted queueOrder (queueAfter ts) := by
  induction ts using List.reverseRecOn with
  | nil => exact List.sorted_nil
  | append_singleton l t _ =>
    rw [queueAfter_append_one]
    exact List.sorted_insertionSort queueOrder _

/-- Stability: a pair of enqueued tasks that is already correctly ordered
(in particular, any pair of equal priority, in insertion order) keeps its
relative order in the accumulated pending queue. -/
theorem queueAfter_stable (ts : List UploadTask) (a b : UploadTask)
    (hab : queueOrder a b)
    (hsub : List.Sublist [a, b] (ts.map applyDefaultPriority)) :
    List.Sublist [a, b] (queueAfter ts) := by
  induction ts using List.reverseRecOn with
  | nil => cases hsub
  | append_singleton l t ih =>
    rw [List.map_append] at hsub
    rw [queueAfter_append_one, queueUploadPure]
    refine List.sublist_insertionSort (List.pairwise_pair.mpr hab) ?_
    obtain ⟨l₁, l₂, heq, h₁, h₂⟩ := List.sublist_append_iff.mp hsub
    rcases List.sublist_singleton.mp h₂ with h2nil | h2one
    · rw [h2nil, List.append_nil] at heq
      rw [← heq] at h₁
      exact (ih h₁).trans (List.sublist_append_left _ _)
    · have hl1 : l₁ = [a] := by
        rw [h2one] at heq
        have hlen : l₁.length + 1 = 2 := by
          have := congrArg List.length heq
          simpa using this
        rcases l₁ with - | ⟨x, l₁'⟩
        · simp at hlen
        · rcases l₁' with - | ⟨y, l₁''⟩
          · have hxa : a = x := by
              have := congrArg (fun l => l.head?) heq
              simpa using this
            rw [hxa]
          · simp at hlen
      have hb : b = applyDefaultPriority t := by
        rw [hl1, h2one] at heq
        have := congrArg (fun l => l.get? 1) heq
        simpa using this
      have ha : List.Sublist [a] (queueAfter l) := by
        rw [hl1] at h₁
        rw [List.singleton_sublist] at h₁ ⊢
        exact ((queueAfter_perm l).mem_iff).mpr h₁
      have : List.Sublist ([a] ++ [b]) (queueAfter l ++ [applyDefaultPriority t]) :=
        List.Sublist.append ha (by rw [hb])
      simpa using this

/-- C1 counterexample: enqueueing the five scenario tasks with priorities
`[1, 3, 1, 2, 3]` at an idle, unpaused scheduler does NOT drain them in
priority-descending order: `queueUpload` synchronously starts the drain
loop, which shifts the first (priority-1) task before the other four are
enqueued, so the dequeue order is task1, task2, task5, task4, task3 —
not the claimed task2, task5, task4, task1, task3. -/
theorem enqueue_scenario_counterexample :
    (schedRun scenarioEvents).drained =
      [scenarioTask1, scenarioTask2, scenarioTask5, scenarioTask4, scenarioTask3] ∧
    (schedRun scenarioEvents).drained ≠
      [scenarioTask2, scenarioTask5, scenarioTask4, scenarioTask1, scenarioTask3] := by
  constructor
  · decide
  · decide

/-- C1 (amended): the pending queue is at all times sorted by priority
descending, so each dequeue (which shifts the queue head) takes a
highest-priority pending task; after any sequence of enqueues with no
intervening dequeue the pending queue is exactly the enqueued tasks in
priority-descending order with equal priorities in insertion order
(stable); and the five scenario tasks drain in the claimed order
task2, task5, task4, task1, task3 when all five are pending before
draining begins — here, enqueued while the queue is paused. -/
theorem enqueue_priority_order_amended :
    (∀ ts : List UploadTask,
      List.Perm (queueAfter ts) (ts.map applyDefaultPriority)) ∧
    (∀ ts : List UploadTask, List.Sorted queueOrder (queueAfter ts)) ∧
    (∀ (ts : List UploadTask) (a b : UploadTask), queueOrder a b →
      List.Sublist [a, b] (ts.map applyDefaultPriority) →
      List.Sublist [a, b] (queueAfter ts)) ∧
    (∀ events : List SchedEvent,
      List.Sorted queueOrder ((schedRun events).uploadQueue)) ∧
    (schedRun pausedScenarioEvents).drained =
      [scenarioTask2, scenarioTask5, scenarioTask4, scenarioTask1, scenarioTask3] :=
  ⟨queueAfter_perm, queueAfter_sorted, queueAfter_stable,
   fun events => (schedRun_inv events).2.2, by decide⟩

/-- Witness for the amended C1: the stability clause applied to the two
priority-3 scenario tasks inside the five-task enqueue sequence. -/
theorem enqueue_priority_order_amended_witness :
    List.Sublist [scenarioTask2, scenarioTask5]
      (queueAfter [scenarioTask1, scenarioTask2, scenarioTask3,
        scenarioTask4, scenarioTask5]) :=
  enqueue_priority_order_amended.2.2.1
    [scenarioTask1, scenarioTask2, scenarioTask3, scenarioTask4, scenarioTask5]
    scenarioTask2 scenarioTask5 (by decide) (by decide)

/-! ### Startup reload of the persisted queue -/

/-- C4: the startup reload keeps exactly the stored tasks that are at most
`MAX_QUEUE_AGE` old and whose source file still exists, and re-submits
them sorted by priority descending; the sort is stable, so tasks of equal
priority keep their stored relative order. -/
theorem loadQueue_filters_and_sorts (stored : List StoredUploadTask)
    (now : Int) (fileExists : String → Bool) :
    List.Perm (loadQueue stored now fileExists)
      ((stored.filter fun s =>
        decide (now - s.createdAt ≤ MAX_QUEUE_AGE) && fileExists s.uri).map
          restoreTask) ∧
    List.Sorted restoreOrder (loadQueue stored now fileExists) ∧
    (∀ a b : UploadTask, restoreOrder a b →
      List.Sublist [a, b]
        ((stored.filter (keepStored now fileExists)).map restoreTask) →
      List.Sublist [a, b] (loadQueue stored now fileExists)) := by
  refine ⟨?_, List.sorted_insertionSort restoreOrder _,
    fun a b hab hsub =>
      List.sublist_insertionSort (List.pairwise_pair.mpr hab) hsub⟩
  have hpred : keepStored now fileExists = fun s =>
      decide (now - s.createdAt ≤ MAX_QUEUE_AGE) && fileExists s.uri := by
    funext s
    rw [keepStored, ← decide_not]
    congr 1
    simp [not_lt]
  rw [loadQueue, hpred]
  exact List.perm_insertionSort restoreOrder _

/-- Witness for C4: a snapshot holding an expired record, two fresh
equal-priority records, and a record whose file is gone, reloaded at time
100000000 (the expired record was persisted at time 0, more than
`MAX_QUEUE_AGE` earlier): the two surviving equal-priority tasks keep
their stored order in the reloaded queue. -/
theorem loadQueue_filters_and_sorts_witness :
    List.Sublist [restoreTask storedKeepA, restoreTask storedKeepB]
      (loadQueue [storedOld, storedKeepA, storedKeepB, storedGone]
        100000000 (fun u => !(u == "gone"))) :=
  (loadQueue_filters_and_sorts [storedOld, storedKeepA, storedKeepB, storedGone]
      100000000 (fun u => !(u == "gone"))).2.2
    (restoreTask storedKeepA) (restoreTask storedKeepB)
    (by decide) (by decide)

end StorageService

namespace VideoProcessor

/-- The compression gate implies at least one chunk. -/
theorem totalChunks_pos (size : Nat) (h : needsCompression size = true) :
    0 < totalChunks size := by
  have hsize : MAX_VIDEO_SIZE < size := by
    simpa [needsCompression] using h
  rw [totalChunks, chunkSize]
  refine Nat.div_pos ?_ (by norm_num)
  rw [MAX_VIDEO_SIZE] at hsize
  omega

/-- Bounds for a single rescaled compression-progress value. -/
theorem compress_value_bounds (n i : Nat) (hn : 0 < n) (hi : i < n) :
    30 ≤ 30 + (((i : ℚ) + 1) / (n : ℚ) * 100) * 0.6 ∧
    30 + (((i : ℚ) + 1) / (n : ℚ) * 100) * 0.6 ≤ 90 := by
  have hnq : (0 : ℚ) < (n : ℚ) := by exact_mod_cast hn
  have hfrac0 : (0 : ℚ) ≤ ((i : ℚ) + 1) / (n : ℚ) := by positivity
  have hfrac1 : ((i : ℚ) + 1) / (n : ℚ) ≤ 1 := by
    rw [div_le_one hnq]
    exact_mod_cast Nat.succ_le_of_lt hi
  constructor
  · nlinarith
  · nlinarith

/-- Monotonicity of the rescaled compression-progress values. -/
theorem compress_value_mono (n i j : Nat) (hn : 0 < n) (hij : i ≤ j) :
    30 + (((i : ℚ) + 1) / (n : ℚ) * 100) * 0.6 ≤
      30 + (((j : ℚ) + 1) / (n : ℚ) * 100) * 0.6 := by
  have hnq : (0 : ℚ) < (n : ℚ) := by exact_mod_cast hn
  have hfrac : ((i : ℚ) + 1) / (n : ℚ) ≤ ((j : ℚ) + 1) / (n : ℚ) := by
    rw [div_le_div_iff_of_pos_right hnq]
    exact_mod_cast Nat.add_le_add_right hij 1
  nlinarith

/-- C6: the sequence of values `processVideo` passes to its progress
callback is monotonically non-decreasing and every value lies in
`[0, 100]`, whether or not the compression branch is taken and for every
number of chunks. -/
theorem processVideo_progress_monotone (size : Nat) :
    List.Pairwise (fun a b => a ≤ b) (processVideoProgress size) ∧
    (∀ x ∈ processVideoProgress size, 0 ≤ x ∧ x ≤ 100) := by
  by_cases hc : needsCompression size = true
  · have hn := totalChunks_pos size hc
    have hmid : (compressProgressValues size).map (fun p => 30 + p * 0.6) =
        (List.range (totalChunks size)).map
          (fun (i : Nat) => 30 + (((i : ℚ) + 1) / (totalChunks size : ℚ) * 100) * 0.6) := by
      rw [compressProgressValues, List.map_map]
      rfl
    rw [processVideoProgress, if_pos hc, hmid]
    constructor
    · rw [List.pairwise_append]
      refine ⟨?_, by decide, ?_⟩
      · rw [List.pairwise_append]
        refine ⟨by decide, ?_, ?_⟩
        · rw [List.pairwise_map]
          refine (List.pairwise_lt_range (totalChunks size)).imp ?_
          intro i j hij
          exact compress_value_mono (totalChunks size) i j hn (le_of_lt hij)
        · intro a ha b hb
          have ha30 : a ≤ 30 := by fin_cases ha <;> norm_num
          rw [List.mem_map] at hb
          obtain ⟨i, hi, rfl⟩ := hb
          rw [List.mem_range] at hi
          have h30 := (compress_value_bounds (totalChunks size) i hn hi).1
          linarith
      · intro a ha b hb
        rw [List.mem_append] at ha
        have ha90 : a ≤ 90 := by
          rcases ha with ha | ha
          · fin_cases ha <;> norm_num
          · rw [List.mem_map] at ha
            obtain ⟨i, hi, rfl⟩ := ha
            rw [List.mem_range] at hi
            exact (compress_value_bounds (totalChunks size) i hn hi).2
        fin_cases hb <;> linarith
    · intro x hx
      rw [List.mem_append, List.mem_append] at hx
      rcases hx with (hx | hx) | hx
      · fin_cases hx <;> norm_num
      · rw [List.mem_map] at hx
        obtain ⟨i, hi, rfl⟩ := hx
        rw [List.mem_range] at hi
        have hb := compress_value_bounds (totalChunks size) i hn hi
        exact ⟨by linarith [hb.1], by linarith [hb.2]⟩
      · fin_cases hx <;> norm_num
  · rw [processVideoProgress, if_neg hc]
    refine ⟨by decide, ?_⟩
    intro x hx
    fin_cases hx <;> norm_num

/-- Witness for C6: the checkpoint value 95 emitted for a 10-byte input is
within bounds. -/
theorem processVideo_progress_monotone_witness :
    0 ≤ (95 : ℚ) ∧ (95 : ℚ) ≤ 100 :=
  (processVideo_progress_monotone 10).2 95 (by decide)

end VideoProcessor

end TTC
